import Mathlib

/-!
# Verification of the cragheads route-identifier hold-detection core

Shallow embedding of the hold-detection pipeline of the repository
`cragheads-route-identifier` (Python/OpenCV), covering:

* `src/services/image_processor.py` — `ImageProcessor._process_image_sync`,
  `get_route_by_color`;
* `src/services/background_removal_service.py` —
  `BackgroundRemovalService._create_hold_mask`, `_remove_background_sync`;
* `src/services/visualization_service.py` —
  `VisualizationService.create_hold_visualization`.

OpenCV primitives (`cv2.imdecode`, `cv2.inRange`, `cv2.morphologyEx`,
`cv2.findContours`, `cv2.contourArea`, `cv2.mean`, `cv2.countNonZero`,
Canny edge detection, …) are external library code, not code of this
repository.  They are modelled as explicit function parameters or as data
carried by the contour records they produce; the repository's own control
flow (thresholds, guards, loops, dictionary construction, cancellation
checks, hold-descriptor construction, error propagation) is embedded
concretely from the source.  `cv2.boundingRect` is a simple min/max
computation over the contour points and is embedded directly.

Python `dict`s preserve insertion order; they are modelled as association
lists.  The cooperative cancellation token (`asyncio.Event`) is modelled as
an observation function `obs : Nat → Bool`: the `k`-th cancellation
checkpoint that the run reaches reads `obs k`.
-/

namespace Cragheads

/-- BGR / RGB / HSV colour triples (each component a byte value). -/
abbrev Color3 := Nat × Nat × Nat

/-- A decoded image: a three-channel pixel grid (`cv2.imdecode` with
`IMREAD_COLOR`).  Pixel contents are only consumed by the abstracted
OpenCV primitives, so they are carried as a function. -/
structure Image where
  width : Nat
  height : Nat
  pix : Nat → Nat → Color3

/-- Python exception kinds relevant to the pipeline, as distinguishable by
a caller.  `unsupportedLabel` is the `ValueError` raised by
`get_route_by_color`; `libraryError` is an untyped error raised from
inside the OpenCV library (e.g. `cv2.error` when `cvtColor` is applied to
the `None` returned by a failed `cv2.imdecode`); `invalidImage` is the
typed error kind named by the specification (no code path of the
repository constructs it). -/
inductive ErrorKind where
  | invalidImage
  | unsupportedLabel
  | libraryError
  deriving DecidableEq, Repr

/-- `ImageProcessor.color_ranges` from `image_processor.py` (`__init__`):
the recognized colour labels, in dict insertion order, each with its
inclusive HSV lower/upper bounds. -/
def colorRanges : List (String × (Color3 × Color3)) :=
  [ ("red",    ((0, 100, 100),   (10, 255, 255))),
    ("blue",   ((100, 100, 100), (130, 255, 255))),
    ("green",  ((40, 100, 100),  (80, 255, 255))),
    ("yellow", ((20, 100, 100),  (30, 255, 255))),
    ("purple", ((130, 100, 100), (160, 255, 255))),
    ("orange", ((10, 100, 100),  (20, 255, 255))),
    ("pink",   ((150, 100, 100), (170, 255, 255))),
    ("white",  ((0, 0, 200),     (180, 30, 255))),
    ("black",  ((0, 0, 0),       (180, 255, 30))) ]

/-- The recognized label set, in iteration order of the
`self.color_ranges` dict. -/
def labelNames : List String := colorRanges.map Prod.fst

/-- `ImageProcessor.visualization_colors` /
`VisualizationService.visualization_colors`: canonical BGR display colour
per label. -/
def visualizationColors : List (String × Color3) :=
  [ ("red",    (0, 0, 255)),
    ("blue",   (255, 0, 0)),
    ("green",  (0, 255, 0)),
    ("yellow", (0, 255, 255)),
    ("purple", (255, 0, 255)),
    ("orange", (0, 165, 255)),
    ("pink",   (255, 192, 203)),
    ("white",  (255, 255, 255)),
    ("black",  (0, 0, 0)) ]

/-- Data of one final contour reaching the per-contour loop of
`_process_image_sync` (lines 111–148).  `points` is the contour's point
list (`contour.reshape(-1, 2).tolist()`); the remaining fields carry the
values that the OpenCV primitives compute for this contour:
`area = cv2.contourArea(contour)`, `nonChalkCount` the
`cv2.countNonZero` of the contour mask minus chalk, and `meanColor` the
integer-truncated `cv2.mean` over the non-chalk pixels. -/
structure ContourData where
  points : List (Nat × Nat)
  area : ℚ
  nonChalkCount : Nat
  meanColor : Color3
  deriving DecidableEq

/-- One detected hold, as the dictionary built at lines 137–148 of
`image_processor.py`: centre position, bounding-box size, contour points
and representative colour. -/
structure Hold where
  posX : Nat
  posY : Nat
  width : Nat
  height : Nat
  contour : List (Nat × Nat)
  color : Color3
  deriving DecidableEq

/-- `cv2.boundingRect` over a contour's points: the minimal upright
rectangle `(x, y, w, h)` containing them, with
`w = xmax - xmin + 1` and `h = ymax - ymin + 1`.  (OpenCV never calls it
on an empty contour; the `[]` case is a junk value.) -/
def boundingRect : List (Nat × Nat) → Nat × Nat × Nat × Nat
  | [] => (0, 0, 0, 0)
  | p :: ps =>
    let xmin := ps.foldl (fun m q => min m q.1) p.1
    let xmax := ps.foldl (fun m q => max m q.1) p.1
    let ymin := ps.foldl (fun m q => min m q.2) p.2
    let ymax := ps.foldl (fun m q => max m q.2) p.2
    (xmin, ymin, xmax - xmin + 1, ymax - ymin + 1)

/-- Hold-descriptor construction for one accepted contour
(`image_processor.py` lines 119–148): representative colour is the mean
colour over non-chalk pixels when any exist, else the label's canonical
display colour; centre is `(x + w // 2, y + h // 2)` from the bounding
rectangle. -/
def mkHold (label : String) (c : ContourData) : Hold :=
  let r := boundingRect c.points
  let x := r.1
  let y := r.2.1
  let w := r.2.2.1
  let h := r.2.2.2
  { posX := x + w / 2
    posY := y + h / 2
    width := w
    height := h
    contour := c.points
    color :=
      if c.nonChalkCount > 0 then c.meanColor
      else ((visualizationColors.lookup label).getD (0, 0, 0)) }

/-- The per-contour loop of `_process_image_sync` (lines 111–148): each
iteration first reads the cancellation token (`obs k`; returning `none`
models `return {}`), then skips contours with
`cv2.contourArea(contour) < 100`, and otherwise appends the hold built
from the contour.  Returns the hold list together with the next
checkpoint index. -/
def processContours (label : String) (obs : Nat → Bool) :
    Nat → List ContourData → Option (List Hold × Nat)
  | k, [] => some ([], k)
  | k, c :: rest =>
    if obs k then none
    else if c.area < 100 then processContours label obs (k + 1) rest
    else
      match processContours label obs (k + 1) rest with
      | none => none
      | some (hs, k') => some (mkHold label c :: hs, k')

/-- The per-label loop of `_process_image_sync` (lines 74–151): each
label's iteration first reads the cancellation token and aborts with
`return {}` (modelled by `none`) when set, then runs the per-contour loop
on the final contours the OpenCV mask pipeline produces for that label
(`contoursFor label`), and records the label in the results dict only when
its hold list is non-empty (`if holds: results[color] = holds`). -/
def processLabels (contoursFor : String → List ContourData) (obs : Nat → Bool) :
    Nat → List String → Option (List (String × List Hold) × Nat)
  | k, [] => some ([], k)
  | k, label :: rest =>
    if obs k then none
    else
      match processContours label obs (k + 1) (contoursFor label) with
      | none => none
      | some (hs, k') =>
        match processLabels contoursFor obs k' rest with
        | none => none
        | some (res, k'') =>
          some ((if hs.isEmpty then res else (label, hs) :: res), k'')

/-- `ImageProcessor._process_image_sync` (lines 60–153).  `decode` models
`cv2.imdecode` (returning `none` on undecodable bytes); `contoursFor img`
models the per-label OpenCV mask pipeline (lines 79–108) yielding the
final contours with their computed data.  A failed decode is *not*
checked by the code: the `None` image flows into `cv2.cvtColor`, which
raises an untyped library error.  When the cancellation token is observed
set at a checkpoint, the code does `return {}` (an empty results dict,
raising nothing). -/
def processImageSync (decode : List Nat → Option Image)
    (contoursFor : Image → String → List ContourData)
    (obs : Nat → Bool) (data : List Nat) :
    Except ErrorKind (List (String × List Hold)) :=
  match decode data with
  | none => .error .libraryError
  | some img =>
    match processLabels (contoursFor img) obs 0 labelNames with
    | none => .ok []
    | some (res, _) => .ok res

/-- Result of `get_route_by_color`: the dict
`{"color": target_color, "holds": results.get(target_color, [])}`. -/
structure RouteResult where
  color : String
  holds : List Hold
  deriving DecidableEq

/-- `ImageProcessor.get_route_by_color` (lines 155–174): raises
`ValueError` (`unsupportedLabel`) when the target colour is not a key of
`self.color_ranges`, *before* any call to `process_image`; otherwise runs
the pipeline and projects the target label's holds (defaulting to the
empty list). -/
def getRouteByColor (decode : List Nat → Option Image)
    (contoursFor : Image → String → List ContourData)
    (obs : Nat → Bool) (data : List Nat) (targetColor : String) :
    Except ErrorKind RouteResult :=
  if (colorRanges.lookup targetColor).isNone then .error .unsupportedLabel
  else
    match processImageSync decode contoursFor obs data with
    | .error e => .error e
    | .ok res => .ok ⟨targetColor, (res.lookup targetColor).getD []⟩

/-! ## Background removal service (`background_removal_service.py`) -/

/-- `BackgroundRemovalService.min_hold_size` (`__init__`, line 21). -/
def minHoldSize : ℚ := 200

/-- Data of one edge-derived candidate region reaching the filter loop of
`_create_hold_mask` (lines 200–220): `area = cv2.contourArea(contour)`,
`perimeter = cv2.arcLength(contour, True)`, `circOk` the result of the
floating-point circularity test
`0.05 < 4·π·area/perimeter² < 0.95`, and `overlapCount` the number of
pixels set (to 255) in `cv2.bitwise_and(contour_mask, color_mask)`. -/
structure EdgeRegion where
  area : ℚ
  perimeter : ℚ
  circOk : Bool
  overlapCount : Nat
  deriving DecidableEq

/-- The acceptance condition of `_create_hold_mask` (lines 200–214) as
written in the code: `area > self.min_hold_size`, `perimeter > 0`, the
circularity test, and `np.sum(color_overlap) > area * 0.1`.  The overlap
mask stores the byte 255 at each overlapping pixel, so
`np.sum(color_overlap) = 255 * overlapCount`. -/
def holdMaskAccept (r : EdgeRegion) : Bool :=
  minHoldSize < r.area && 0 < r.perimeter && r.circOk &&
    r.area * (1 / 10) < (255 * r.overlapCount : ℚ)

/-- The acceptance condition as the specification (and the code's own
comment `# Only 10% colored required`) states it: the *fractional*
overlap — overlapping pixels as a fraction of the region's area — must
exceed 10%.  Written from the spec's words, for comparison with
`holdMaskAccept`. -/
def holdMaskAcceptSpec (r : EdgeRegion) : Bool :=
  minHoldSize < r.area && 0 < r.perimeter && r.circOk &&
    r.area * (1 / 10) < (r.overlapCount : ℚ)

/-- Result dict of `_remove_background_sync`. -/
structure BgResult where
  base64Image : String
  filePath : String
  deriving DecidableEq

/-- `BackgroundRemovalService._remove_background_sync` (lines 253–311).
`render img` abstracts the mask construction, debug/file writes and
base64 encoding of the success path (returning the pair
`(base64_image, file_path)`).  Structure from the source: decode (never
checked for `None`); first cancellation checkpoint returns the
empty-result marker; `_create_hold_mask` raises an untyped library error
on a `None` image; second cancellation checkpoint returns the
empty-result marker; otherwise the encoded result is produced.  No path
constructs a typed `invalidImage` error. -/
def removeBackgroundSync (decode : List Nat → Option Image)
    (render : Image → String × String)
    (obs : Nat → Bool) (data : List Nat) :
    Except ErrorKind BgResult :=
  match decode data with
  | dec =>
    if obs 0 then .ok ⟨"", ""⟩
    else
      match dec with
      | none => .error .libraryError
      | some img =>
        if obs 1 then .ok ⟨"", ""⟩
        else .ok ⟨(render img).1, (render img).2⟩

/-! ## Visualization service (`visualization_service.py`) -/

/-- A drawing canvas: colour at each integer pixel coordinate.  (Clipping
to the image bounds is irrelevant to the claims; only in-bounds pixels
are ever inspected.) -/
abbrev Canvas := Int → Int → Color3

/-- Membership in the axis-aligned rectangle with corners
`(x1, y1)`–`(x2, y2)`, inclusive. -/
def inRect (x1 y1 x2 y2 px py : Int) : Bool :=
  x1 ≤ px && px ≤ x2 && y1 ≤ py && py ≤ y2

/-- `cv2.rectangle(..., thickness=-1)`: fill the rectangle. -/
def fillRect (c : Canvas) (x1 y1 x2 y2 : Int) (col : Color3) : Canvas :=
  fun px py => if inRect x1 y1 x2 y2 px py then col else c px py

/-- The 2px outline band drawn by `cv2.rectangle(..., thickness=2)`:
the band of width 2 centred on the rectangle border (one pixel outside
and one pixel inside the ideal border). -/
def onOutline2 (x1 y1 x2 y2 px py : Int) : Bool :=
  inRect (x1 - 1) (y1 - 1) (x2 + 1) (y2 + 1) px py &&
    !(inRect (x1 + 1) (y1 + 1) (x2 - 1) (y2 - 1) px py)

/-- `cv2.rectangle(..., thickness=2)`: stroke the 2px outline. -/
def strokeRect2 (c : Canvas) (x1 y1 x2 y2 : Int) (col : Color3) : Canvas :=
  fun px py => if onOutline2 x1 y1 x2 y2 px py then col else c px py

/-- Drawing one hold in `create_hold_visualization` (lines 43–61): fill
the rectangle from `(x - w//2, y - h//2)` to `(x + w//2, y + h//2)` with
`bgr` (the label's canonical display colour — *not* the hold's `color`
field), then stroke a 2px white outline on the same rectangle. -/
def drawHold (bgr : Color3) (c : Canvas) (h : Hold) : Canvas :=
  let x1 : Int := (h.posX : Int) - (h.width : Int) / 2
  let y1 : Int := (h.posY : Int) - (h.height : Int) / 2
  let x2 : Int := (h.posX : Int) + (h.width : Int) / 2
  let y2 : Int := (h.posY : Int) + (h.height : Int) / 2
  strokeRect2 (fillRect c x1 y1 x2 y2 bgr) x1 y1 x2 y2 (255, 255, 255)

/-- One iteration of the outer loop of `create_hold_visualization`
(lines 41–61): look up the label's canonical BGR colour and draw each of
its holds in order.  (The source indexes
`self.visualization_colors[color]` directly; every label produced by the
pipeline is a key, so the `getD` default is never reached for pipeline
output.) -/
def drawLabel (c : Canvas) (entry : String × List Hold) : Canvas :=
  entry.2.foldl (drawHold ((visualizationColors.lookup entry.1).getD (0, 0, 0))) c

/-- `VisualizationService.create_hold_visualization` (lines 21–65), up to
the final PNG/base64 encoding: start from a black canvas sized to the
source image and draw every hold of every label in dict order. -/
def createHoldVisualization (holdsByColor : List (String × List Hold)) : Canvas :=
  holdsByColor.foldl drawLabel (fun _ _ => (0, 0, 0))

/-! ## Test fixtures (concrete instantiations used by witnesses) -/

/-- A concrete 100×100 three-channel image. -/
def testImage : Image := ⟨100, 100, fun _ _ => (0, 0, 0)⟩

/-- A concrete contour of area exactly 100 with points inside `testImage`. -/
def testContour : ContourData := ⟨[(5, 5), (7, 9)], 100, 0, (0, 0, 0)⟩

/-- A decoder that decodes every byte string to `testImage`. -/
def testDecode : List Nat → Option Image := fun _ => some testImage

/-- A mask pipeline producing `testContour` for every label. -/
def testContoursFor : Image → String → List ContourData := fun _ _ => [testContour]

/-- A cancellation token that is never set. -/
def noCancel : Nat → Bool := fun _ => false

/-! ## Helper lemmas -/

/-- In an uncancelled (`some`) run, the per-contour loop emits exactly the
holds of the contours whose area is at least 100, in order: contours with
`area < 100` are skipped, all others produce a hold. -/
theorem processContours_eq_filter (label : String) (obs : Nat → Bool) :
    ∀ (cs : List ContourData) (k : Nat) (res : List Hold × Nat),
      processContours label obs k cs = some res →
      res.1 = (cs.filter fun c => !decide (c.area < 100)).map (mkHold label) := by
  intro cs
  induction cs with
  | nil =>
    intro k res h
    simp only [processContours, Option.some.injEq] at h
    simp [← h]
  | cons c rest ih =>
    intro k res h
    rw [processContours] at h
    by_cases hobs : obs k = true
    · simp [hobs] at h
    · rw [if_neg hobs] at h
      by_cases harea : c.area < 100
      · rw [if_pos harea] at h
        have hrest := ih (k + 1) res h
        simp [List.filter_cons, harea, hrest]
      · rw [if_neg harea] at h
        cases hrec : processContours label obs (k + 1) rest with
        | none => rw [hrec] at h; cases h
        | some p =>
          rw [hrec] at h
          have hrest := ih (k + 1) p hrec
          cases h
          simp [List.filter_cons, harea, hrest]

/-! ## Claims -/

/-- C1: the claim states that a candidate region passing the area and
circularity filters is accepted as a hold iff the fractional overlap with
the colour mask exceeds 10% of its area.  The code (and its own comment
`# Only 10% colored required`) intends this, but compares
`np.sum(color_overlap)` — which counts 255 per overlapping pixel, the
mask being 0/255-valued — against `area * 0.1`, so a region is accepted
once its overlap exceeds about 0.04% of its area.  Concretely: a region
of area 2550 (perimeter 600, circularity ≈ 0.089, passing both filters)
with only 2 overlapping pixels — an overlap fraction of 2/2550 ≈ 0.08%,
far below 10% — is accepted by the code, while the stated 10% rule
rejects it. -/
theorem C1_hold_overlap_unit_bug :
    holdMaskAccept ⟨2550, 600, true, 2⟩ = true ∧
    ¬ ((1 : ℚ) / 10 < 2 / 2550) ∧
    holdMaskAcceptSpec ⟨2550, 600, true, 2⟩ = false := by
  refine ⟨by norm_num [holdMaskAccept, minHoldSize], by norm_num,
    by norm_num [holdMaskAcceptSpec, minHoldSize]⟩

/-- C2: for every colour label that is not a key of the recognized set
`color_ranges`, `get_route_by_color` fails with the unsupported-label
error (`ValueError`, distinct from any invalid-image error) for every
input byte sequence; the result is independent of the decoder — the
label check precedes the `process_image` call, so no image decoding is
performed. -/
theorem C2_unsupported_label_no_decode (targetColor : String)
    (h : (colorRanges.lookup targetColor).isNone = true)
    (decode : List Nat → Option Image)
    (contoursFor : Image → String → List ContourData)
    (obs : Nat → Bool) (data : List Nat) :
    getRouteByColor decode contoursFor obs data targetColor =
      .error .unsupportedLabel ∧
    ErrorKind.unsupportedLabel ≠ ErrorKind.invalidImage := by
  exact ⟨by simp [getRouteByColor, h], by decide⟩

/-- Witness for C2 at the concrete unrecognized label `"teal"`. -/
theorem C2_unsupported_label_no_decode_witness :
    ((colorRanges.lookup "teal").isNone = true) ∧
    getRouteByColor (fun _ => none) (fun _ _ => []) noCancel [] "teal" =
      .error .unsupportedLabel :=
  ⟨by decide,
   (C2_unsupported_label_no_decode "teal" (by decide) (fun _ => none)
      (fun _ _ => []) noCancel []).1⟩

/-- C3: the detection pipeline is a deterministic function of the input
bytes and the static configuration: two runs of `process_image` on
identical byte sequences, with no cancellation, produce identical
detection results.  (In the embedding the decoder and the OpenCV mask
pipeline are explicit function parameters — fixed deterministic library
code — and the pipeline uses no other state.) -/
theorem C3_deterministic (decode : List Nat → Option Image)
    (contoursFor : Image → String → List ContourData)
    (d₁ d₂ : List Nat) (h : d₁ = d₂) :
    processImageSync decode contoursFor noCancel d₁ =
      processImageSync decode contoursFor noCancel d₂ := by
  rw [h]

/-- Witness for C3 at a concrete byte sequence. -/
theorem C3_deterministic_witness :
    ([37, 80] : List Nat) = [37, 80] ∧
    processImageSync testDecode testContoursFor noCancel [37, 80] =
      processImageSync testDecode testContoursFor noCancel [37, 80] :=
  ⟨rfl, C3_deterministic testDecode testContoursFor [37, 80] [37, 80] rfl⟩

/-- Counterexample to C4: the renderer fills each hold's rectangle with
the *canonical display colour of its label*
(`self.visualization_colors[color]`), not with the hold's representative
colour (`hold["color"]`).  A hold with representative colour (1,2,3)
under label `"red"` is painted (0,0,255) at an interior pixel of its
filled region, so the canvas is not filled with the hold's
representative colour as the claim states. -/
theorem C4_counterexample :
    createHoldVisualization [("red", [⟨10, 10, 4, 4, [(10, 10)], (1, 2, 3)⟩])]
        10 10 = (0, 0, 255) ∧
    ((0, 0, 255) : Color3) ≠ ((1, 2, 3) : Color3) := by
  exact ⟨by decide, by decide⟩

/-- Counterexample to C5: the claim states that a contour whose area is
exactly the minimum-hold-size threshold is accepted by *every* stage
applying the threshold.  The hold-mask stage of
`background_removal_service.py` requires `area > self.min_hold_size`
(strictly), so a region of area exactly 200 is rejected there even when
every other filter passes (positive perimeter, circularity ok, and an
overlap far above the required amount). -/
theorem C5_counterexample :
    (⟨200, 50, true, 1000000⟩ : EdgeRegion).area = minHoldSize ∧
    (0 : ℚ) < (⟨200, 50, true, 1000000⟩ : EdgeRegion).perimeter ∧
    (⟨200, 50, true, 1000000⟩ : EdgeRegion).circOk = true ∧
    minHoldSize * (1 / 10) < (255 * 1000000 : ℚ) ∧
    holdMaskAccept ⟨200, 50, true, 1000000⟩ = false := by
  refine ⟨rfl, by norm_num, rfl, by norm_num [minHoldSize],
    by norm_num [holdMaskAccept, minHoldSize]⟩

/-- C5 as amended: in the detection pipeline's per-contour loop, no hold
is emitted for a contour of area < 100 and every contour of area ≥ 100
(in particular exactly 100) yields a hold — the emitted holds are exactly
the filter of the contour list; the hold-mask stage of the background
service, however, requires area *strictly greater* than its minimum hold
size (200), so a region with area at most 200 — including exactly 200 —
is rejected there. -/
theorem C5_amended :
    (∀ (label : String) (obs : Nat → Bool) (k : Nat) (cs : List ContourData)
        (res : List Hold × Nat),
        processContours label obs k cs = some res →
        res.1 = (cs.filter fun c => !decide (c.area < 100)).map (mkHold label)) ∧
    (∀ r : EdgeRegion, r.area ≤ minHoldSize → holdMaskAccept r = false) := by
  constructor
  · exact fun label obs k cs res h => processContours_eq_filter label obs cs k res h
  · intro r hr
    have hlt : ¬ (minHoldSize < r.area) := not_lt.2 hr
    simp [holdMaskAccept, hlt]

/-- Witness for C5 as amended: with contours of areas 100 and 50, the
loop keeps exactly the area-100 contour; a region of area exactly 200 is
rejected by the hold-mask stage. -/
theorem C5_amended_witness :
    (([⟨[(0, 0)], 100, 0, (0, 0, 0)⟩, ⟨[(0, 0)], 50, 0, (0, 0, 0)⟩] :
          List ContourData).filter fun c => !decide (c.area < 100)).map
        (mkHold "red") = [mkHold "red" ⟨[(0, 0)], 100, 0, (0, 0, 0)⟩] ∧
    holdMaskAccept ⟨200, 50, true, 1000000⟩ = false := by
  constructor
  · have h := C5_amended.1 "red" noCancel 0
      [⟨[(0, 0)], 100, 0, (0, 0, 0)⟩, ⟨[(0, 0)], 50, 0, (0, 0, 0)⟩]
      ([mkHold "red" ⟨[(0, 0)], 100, 0, (0, 0, 0)⟩], 2) (by decide)
    simpa using h.symm
  · exact C5_amended.2 ⟨200, 50, true, 1000000⟩ (by norm_num [minHoldSize])

/-- C4 as amended: rendering the opaque visualization of a detection
result containing a single hold produces a canvas that is black at every
pixel except the hold's filled bounding-box rectangle — painted with the
*canonical display colour of the hold's label*, not the hold's
representative colour — and its 2px white outline band (which is drawn
last and wins on the band). -/
theorem C4_amended (label : String) (bgr : Color3)
    (hl : visualizationColors.lookup label = some bgr) (h : Hold) (px py : Int) :
    createHoldVisualization [(label, [h])] px py =
      (if onOutline2 ((h.posX : Int) - (h.width : Int) / 2)
            ((h.posY : Int) - (h.height : Int) / 2)
            ((h.posX : Int) + (h.width : Int) / 2)
            ((h.posY : Int) + (h.height : Int) / 2) px py = true
        then (255, 255, 255)
        else if inRect ((h.posX : Int) - (h.width : Int) / 2)
            ((h.posY : Int) - (h.height : Int) / 2)
            ((h.posX : Int) + (h.width : Int) / 2)
            ((h.posY : Int) + (h.height : Int) / 2) px py = true
        then bgr
        else (0, 0, 0)) := by
  simp [createHoldVisualization, drawLabel, drawHold, hl, strokeRect2, fillRect]

/-- Witness for C4 as amended: the single red hold of the counterexample,
evaluated at a pixel outside its rectangle (black) — the label lookup
hypothesis discharged at `"red"`. -/
theorem C4_amended_witness :
    visualizationColors.lookup "red" = some (0, 0, 255) ∧
    createHoldVisualization [("red", [⟨10, 10, 4, 4, [(10, 10)], (1, 2, 3)⟩])]
        3 3 = (0, 0, 0) := by
  refine ⟨by decide, ?_⟩
  have h := C4_amended "red" (0, 0, 255) (by decide)
    ⟨10, 10, 4, 4, [(10, 10)], (1, 2, 3)⟩ 3 3
  simpa using h

/-! ## Bounding-rectangle lemmas (for C6) -/

/-- A min-fold from a smaller seed stays below a max-fold from a larger
seed. -/
theorem foldl_min_le_foldl_max (l : List Nat) :
    ∀ x y : Nat, x ≤ y → l.foldl min x ≤ l.foldl max y := by
  induction l with
  | nil => intro x y h; simpa using h
  | cons a t ih =>
    intro x y h
    simp only [List.foldl]
    exact ih _ _ (le_trans (min_le_left x a) (le_trans h (le_max_left y a)))

/-- A max-fold over values below a bound stays below the bound. -/
theorem foldl_max_lt (l : List Nat) :
    ∀ (x W : Nat), x < W → (∀ a ∈ l, a < W) → l.foldl max x < W := by
  induction l with
  | nil => intro x W h _; simpa using h
  | cons a t ih =>
    intro x W h hall
    simp only [List.foldl]
    exact ih _ _ (max_lt h (hall a (by simp)))
      (fun b hb => hall b (List.mem_cons_of_mem a hb))

/-- The hold built from a non-empty contour whose points lie inside the
image has a positive bounding box and a centre inside the image: the
bounding rectangle is the min/max span of the points, so its width and
height are at least 1, and the centre `(x + w / 2, y + h / 2)` is at most
the maximal coordinate. -/
theorem mkHold_invariant (label : String) (c : ContourData) (W H : Nat)
    (hne : c.points ≠ []) (hb : ∀ q ∈ c.points, q.1 < W ∧ q.2 < H) :
    0 < (mkHold label c).width ∧ 0 < (mkHold label c).height ∧
      (mkHold label c).posX < W ∧ (mkHold label c).posY < H := by
  cases hcp : c.points with
  | nil => exact absurd hcp hne
  | cons p ps =>
    rw [hcp] at hb
    have hxW : p.1 < W := (hb p (List.mem_cons_self p ps)).1
    have hyH : p.2 < H := (hb p (List.mem_cons_self p ps)).2
    have hminx :
        ps.foldl (fun m q => min m q.1) p.1 ≤ ps.foldl (fun m q => max m q.1) p.1 := by
      have h := foldl_min_le_foldl_max (ps.map Prod.fst) p.1 p.1 le_rfl
      simpa [List.foldl_map] using h
    have hminy :
        ps.foldl (fun m q => min m q.2) p.2 ≤ ps.foldl (fun m q => max m q.2) p.2 := by
      have h := foldl_min_le_foldl_max (ps.map Prod.snd) p.2 p.2 le_rfl
      simpa [List.foldl_map] using h
    have hmaxx : ps.foldl (fun m q => max m q.1) p.1 < W := by
      have h := foldl_max_lt (ps.map Prod.fst) p.1 W hxW (by
        intro a ha
        obtain ⟨q, hq, rfl⟩ := List.mem_map.1 ha
        exact (hb q (List.mem_cons_of_mem p hq)).1)
      simpa [List.foldl_map] using h
    have hmaxy : ps.foldl (fun m q => max m q.2) p.2 < H := by
      have h := foldl_max_lt (ps.map Prod.snd) p.2 H hyH (by
        intro a ha
        obtain ⟨q, hq, rfl⟩ := List.mem_map.1 ha
        exact (hb q (List.mem_cons_of_mem p hq)).2)
      simpa [List.foldl_map] using h
    simp only [mkHold, boundingRect, hcp]
    refine ⟨by omega, by omega, by omega, by omega⟩

/-- Every entry of an uncancelled per-label run is a non-empty hold list
that is the full output of the per-contour loop on that label's
contours. -/
theorem processLabels_mem (cf : String → List ContourData) (obs : Nat → Bool) :
    ∀ (ls : List String) (k : Nat) (res : List (String × List Hold) × Nat)
      (l : String) (hs : List Hold),
      processLabels cf obs k ls = some res → (l, hs) ∈ res.1 →
      hs ≠ [] ∧ ∃ k₀ k₁, processContours l obs k₀ (cf l) = some (hs, k₁) := by
  intro ls
  induction ls with
  | nil =>
    intro k res l hs h hmem
    simp only [processLabels, Option.some.injEq] at h
    rw [← h] at hmem
    simp at hmem
  | cons label rest ih =>
    intro k res l hs h hmem
    rw [processLabels] at h
    by_cases hobs : obs k = true
    · simp [hobs] at h
    · rw [if_neg hobs] at h
      cases hc : processContours label obs (k + 1) (cf label) with
      | none => rw [hc] at h; cases h
      | some pc =>
        obtain ⟨hs₁, k₁⟩ := pc
        rw [hc] at h
        dsimp only at h
        cases hr : processLabels cf obs k₁ rest with
        | none => rw [hr] at h; cases h
        | some pr =>
          obtain ⟨res₁, k₂⟩ := pr
          rw [hr] at h
          dsimp only at h
          simp only [Option.some.injEq] at h
          rw [← h] at hmem
          by_cases hemp : hs₁.isEmpty = true
          · rw [if_pos hemp] at hmem
            exact ih k₁ (res₁, k₂) l hs hr hmem
          · rw [if_neg hemp] at hmem
            rcases List.mem_cons.1 hmem with heq | hmem'
            · obtain ⟨hl, hhs⟩ := Prod.mk.injEq .. ▸ heq
              refine ⟨?_, k + 1, k₁, ?_⟩
              · rw [hhs]
                simpa [List.isEmpty_iff] using hemp
              · rw [hl, hhs]
                exact hc
            · exact ih k₁ (res₁, k₂) l hs hr hmem'

/-- C6: every hold in a detection result of a decodable image has a
strictly positive bounding-box width and height, and its centre lies
inside the image bounds.  The hypotheses on `contoursFor` record what
`cv2.findContours` guarantees for contours extracted from an image-sized
mask: contours are non-empty point lists whose points lie inside the
image. -/
theorem C6_holds_within_bounds (decode : List Nat → Option Image)
    (contoursFor : Image → String → List ContourData)
    (obs : Nat → Bool) (data : List Nat) (img : Image)
    (res : List (String × List Hold))
    (hdec : decode data = some img)
    (hcf : ∀ label c, c ∈ contoursFor img label →
        c.points ≠ [] ∧ ∀ q ∈ c.points, q.1 < img.width ∧ q.2 < img.height)
    (hres : processImageSync decode contoursFor obs data = .ok res)
    (l : String) (hs : List Hold) (h : Hold)
    (hmem : (l, hs) ∈ res) (hh : h ∈ hs) :
    0 < h.width ∧ 0 < h.height ∧ h.posX < img.width ∧ h.posY < img.height := by
  unfold processImageSync at hres
  rw [hdec] at hres
  dsimp only at hres
  cases hpl : processLabels (contoursFor img) obs 0 labelNames with
  | none =>
    rw [hpl] at hres
    dsimp only at hres
    simp only [Except.ok.injEq] at hres
    rw [← hres] at hmem
    simp at hmem
  | some pr =>
    obtain ⟨res₁, k₂⟩ := pr
    rw [hpl] at hres
    dsimp only at hres
    simp only [Except.ok.injEq] at hres
    rw [← hres] at hmem
    obtain ⟨-, k₀, k₁, hrun⟩ :=
      processLabels_mem (contoursFor img) obs labelNames 0 (res₁, k₂) l hs hpl hmem
    have hfilter : hs =
        (List.filter (fun c => !decide (c.area < 100)) (contoursFor img l)).map
          (mkHold l) :=
      processContours_eq_filter l obs (contoursFor img l) k₀ (hs, k₁) hrun
    rw [hfilter] at hh
    obtain ⟨c, hcmem, rfl⟩ := List.mem_map.1 hh
    have hc : c ∈ contoursFor img l := List.mem_of_mem_filter hcmem
    exact mkHold_invariant l c img.width img.height (hcf l c hc).1 (hcf l c hc).2

/-- Witness for C6: the pipeline run on `testImage` with the single
area-100 contour `testContour` under every label; the red hold has a
3×5 bounding box centred at (6, 7), inside the 100×100 image. -/
theorem C6_holds_within_bounds_witness :
    processImageSync testDecode testContoursFor noCancel [] =
      .ok (labelNames.map fun l => (l, [mkHold l testContour])) ∧
    0 < (mkHold "red" testContour).width ∧
    0 < (mkHold "red" testContour).height ∧
    (mkHold "red" testContour).posX < testImage.width ∧
    (mkHold "red" testContour).posY < testImage.height := by
  refine ⟨rfl, ?_⟩
  exact C6_holds_within_bounds testDecode testContoursFor noCancel [] testImage
    (labelNames.map fun l => (l, [mkHold l testContour])) rfl
    (by
      intro label c hc
      have hc' : c = testContour := by simpa [testContoursFor] using hc
      rw [hc']
      exact ⟨by decide, by decide⟩)
    rfl "red" [mkHold "red" testContour] (mkHold "red" testContour)
    (by decide) (by decide)

/-- C7: when the cancellation token is already set at the first
checkpoint (before any per-label work), the pipeline on a decodable
image returns the empty results dict — no exception, zero labels
populated. -/
theorem C7_cancelled_before_labels (decode : List Nat → Option Image)
    (contoursFor : Image → String → List ContourData)
    (obs : Nat → Bool) (data : List Nat) (img : Image)
    (hdec : decode data = some img) (hobs : obs 0 = true) :
    processImageSync decode contoursFor obs data = .ok [] := by
  unfold processImageSync
  rw [hdec]
  dsimp only
  have hnone : processLabels (contoursFor img) obs 0 labelNames = none := by
    have hcons : labelNames =
        "red" :: ["blue", "green", "yellow", "purple", "orange", "pink",
          "white", "black"] := rfl
    rw [hcons, processLabels, if_pos hobs]
  rw [hnone]

/-- Witness for C7: token set from the start on the test pipeline. -/
theorem C7_cancelled_before_labels_witness :
    testDecode [] = some testImage ∧ (fun _ : Nat => true) 0 = true ∧
    processImageSync testDecode testContoursFor (fun _ => true) [] = .ok [] :=
  ⟨rfl, rfl,
   C7_cancelled_before_labels testDecode testContoursFor (fun _ => true) []
     testImage rfl rfl⟩

/-- C9: a detection result never maps a label to an empty hold list —
labels with zero holds are omitted from the dict
(`if holds: results[color] = holds`), so every entry present is
non-empty. -/
theorem C9_no_empty_label_entries (decode : List Nat → Option Image)
    (contoursFor : Image → String → List ContourData)
    (obs : Nat → Bool) (data : List Nat)
    (res : List (String × List Hold))
    (hres : processImageSync decode contoursFor obs data = .ok res)
    (l : String) (hs : List Hold) (hmem : (l, hs) ∈ res) : hs ≠ [] := by
  unfold processImageSync at hres
  cases hdec : decode data with
  | none => rw [hdec] at hres; cases hres
  | some img =>
    rw [hdec] at hres
    dsimp only at hres
    cases hpl : processLabels (contoursFor img) obs 0 labelNames with
    | none =>
      rw [hpl] at hres
      dsimp only at hres
      simp only [Except.ok.injEq] at hres
      rw [← hres] at hmem
      simp at hmem
    | some pr =>
      obtain ⟨res₁, k₂⟩ := pr
      rw [hpl] at hres
      dsimp only at hres
      simp only [Except.ok.injEq] at hres
      rw [← hres] at hmem
      exact (processLabels_mem (contoursFor img) obs labelNames 0 (res₁, k₂)
        l hs hpl hmem).1

/-- Witness for C9: the test pipeline result contains the red entry,
which is non-empty. -/
theorem C9_no_empty_label_entries_witness :
    processImageSync testDecode testContoursFor noCancel [] =
      .ok (labelNames.map fun l => (l, [mkHold l testContour])) ∧
    [mkHold "red" testContour] ≠ [] :=
  ⟨rfl,
   C9_no_empty_label_entries testDecode testContoursFor noCancel []
     (labelNames.map fun l => (l, [mkHold l testContour])) rfl
     "red" [mkHold "red" testContour] (by decide)⟩

/-- Counterexample to C8: on bytes that do not decode, both the
detection pipeline and the background isolator fail with the *untyped
library error* (the `None` decode result flows into the next OpenCV
call), not with the typed `invalidImage` error the claim asserts. -/
theorem C8_counterexample :
    processImageSync (fun _ => none) (fun _ _ => []) noCancel [] =
      .error .libraryError ∧
    removeBackgroundSync (fun _ => none) (fun _ => ("", "")) noCancel [] =
      .error .libraryError ∧
    ErrorKind.libraryError ≠ ErrorKind.invalidImage :=
  ⟨rfl, rfl, by decide⟩

/-- C8 as amended: undecodable bytes cause the detection pipeline and the
background isolator to fail with an untyped library error — never the
typed `invalidImage` error, which no code path constructs — except that
the background isolator, when cancellation is already set at its first
checkpoint, returns the empty-result marker for undecodable bytes without
any error at all; on decodable bytes background isolation always
succeeds (decoding is its only data-dependent failure path). -/
theorem C8_amended (decode : List Nat → Option Image)
    (render : Image → String × String)
    (contoursFor : Image → String → List ContourData)
    (obs : Nat → Bool) (data : List Nat) :
    (decode data = none →
      processImageSync decode contoursFor obs data = .error .libraryError ∧
      removeBackgroundSync decode render obs data =
        (if obs 0 = true then .ok ⟨"", ""⟩ else .error .libraryError)) ∧
    (∀ img, decode data = some img →
      ∃ r : BgResult, removeBackgroundSync decode render obs data = .ok r) := by
  constructor
  · intro hdec
    constructor
    · unfold processImageSync
      rw [hdec]
    · unfold removeBackgroundSync
      rw [hdec]
  · intro img hdec
    unfold removeBackgroundSync
    rw [hdec]
    by_cases h0 : obs 0 = true
    · exact ⟨⟨"", ""⟩, by simp [h0]⟩
    · by_cases h1 : obs 1 = true
      · exact ⟨⟨"", ""⟩, by simp [h0, h1]⟩
      · exact ⟨⟨(render img).1, (render img).2⟩, by simp [h0, h1]⟩

/-- Witness for C8 as amended: an always-failing decoder yields the
untyped library error from the pipeline; an always-succeeding decoder
makes background isolation succeed. -/
theorem C8_amended_witness :
    processImageSync (fun _ => none) (fun _ _ => []) noCancel [] =
      .error .libraryError ∧
    ∃ r : BgResult,
      removeBackgroundSync testDecode (fun _ => ("a", "b")) noCancel [] = .ok r :=
  ⟨((C8_amended (fun _ => none) (fun _ => ("", "")) (fun _ _ => []) noCancel
      []).1 rfl).1,
   (C8_amended testDecode (fun _ => ("a", "b")) (fun _ _ => []) noCancel
      []).2 testImage rfl⟩

/-! ## Checkpoint accounting (for C10) -/

/-- The number of cancellation checkpoints a full uncancelled run of the
per-label loop visits: one per label plus one per final contour. -/
def totalChecks (cf : String → List ContourData) : List String → Nat
  | [] => 0
  | l :: rest => 1 + (cf l).length + totalChecks cf rest

/-- An uncancelled per-contour run visits exactly the checkpoints
`k, …, k + cs.length - 1`, consecutively, and observes the token unset at
each of them. -/
theorem processContours_some_obs (label : String) (obs : Nat → Bool) :
    ∀ (cs : List ContourData) (k : Nat) (res : List Hold × Nat),
      processContours label obs k cs = some res →
      res.2 = k + cs.length ∧ ∀ j, k ≤ j → j < res.2 → obs j = false := by
  intro cs
  induction cs with
  | nil =>
    intro k res h
    simp only [processContours, Option.some.injEq] at h
    rw [← h]
    refine ⟨rfl, fun j hj hj' => ?_⟩
    dsimp only at hj'
    exact absurd hj' (Nat.not_lt.2 hj)
  | cons c rest ih =>
    intro k res h
    rw [processContours] at h
    by_cases hobs : obs k = true
    · simp [hobs] at h
    · rw [if_neg hobs] at h
      have hobs' : obs k = false := by
        cases hv : obs k
        · rfl
        · exact absurd hv hobs
      by_cases harea : c.area < 100
      · rw [if_pos harea] at h
        obtain ⟨hlen, hall⟩ := ih (k + 1) res h
        refine ⟨by rw [hlen]; simp [Nat.add_comm, Nat.add_left_comm], ?_⟩
        intro j hj hj'
        rcases Nat.eq_or_lt_of_le hj with rfl | hjk
        · exact hobs'
        · exact hall j hjk hj'
      · rw [if_neg harea] at h
        cases hrec : processContours label obs (k + 1) rest with
        | none => rw [hrec] at h; cases h
        | some p =>
          obtain ⟨hs₁, k₁⟩ := p
          rw [hrec] at h
          dsimp only at h
          simp only [Option.some.injEq] at h
          obtain ⟨hlen, hall⟩ := ih (k + 1) (hs₁, k₁) hrec
          rw [← h]
          refine ⟨by simp only [List.length_cons]; omega, ?_⟩
          intro j hj hj'
          rcases Nat.eq_or_lt_of_le hj with rfl | hjk
          · exact hobs'
          · exact hall j hjk hj'

/-- An uncancelled per-label run visits exactly the checkpoints
`k, …, k + totalChecks - 1` and observes the token unset at each. -/
theorem processLabels_some_obs (cf : String → List ContourData) (obs : Nat → Bool) :
    ∀ (ls : List String) (k : Nat) (res : List (String × List Hold) × Nat),
      processLabels cf obs k ls = some res →
      res.2 = k + totalChecks cf ls ∧ ∀ j, k ≤ j → j < res.2 → obs j = false := by
  intro ls
  induction ls with
  | nil =>
    intro k res h
    simp only [processLabels, Option.some.injEq] at h
    rw [← h]
    refine ⟨rfl, fun j hj hj' => ?_⟩
    dsimp only at hj'
    exact absurd hj' (Nat.not_lt.2 hj)
  | cons label rest ih =>
    intro k res h
    rw [processLabels] at h
    by_cases hobs : obs k = true
    · simp [hobs] at h
    · rw [if_neg hobs] at h
      have hobs' : obs k = false := by
        cases hv : obs k
        · rfl
        · exact absurd hv hobs
      cases hc : processContours label obs (k + 1) (cf label) with
      | none => rw [hc] at h; cases h
      | some pc =>
        obtain ⟨hs₁, k₁⟩ := pc
        rw [hc] at h
        dsimp only at h
        cases hr : processLabels cf obs k₁ rest with
        | none => rw [hr] at h; cases h
        | some pr =>
          obtain ⟨res₁, k₂⟩ := pr
          rw [hr] at h
          dsimp only at h
          simp only [Option.some.injEq] at h
          obtain ⟨hlen₁, hall₁⟩ := processContours_some_obs label obs (cf label)
            (k + 1) (hs₁, k₁) hc
          obtain ⟨hlen₂, hall₂⟩ := ih k₁ (res₁, k₂) hr
          rw [← h]
          constructor
          · simp only [totalChecks]
            omega
          · intro j hj hj'
            rcases Nat.eq_or_lt_of_le hj with rfl | hjk
            · exact hobs'
            · by_cases hjin : j < k₁
              · exact hall₁ j hjk hjin
              · exact hall₂ j (le_of_not_lt hjin) hj'

/-- C10: whenever the cancellation token is observed set at some
checkpoint the run reaches — the checkpoints of a full run are exactly
indices `0, …, totalChecks - 1` — the pipeline returns the empty dict:
previously completed per-label results are discarded and a partially
populated mapping is never returned. -/
theorem C10_cancel_discards_all (decode : List Nat → Option Image)
    (contoursFor : Image → String → List ContourData)
    (obs : Nat → Bool) (data : List Nat) (img : Image)
    (hdec : decode data = some img)
    (hset : ∃ j, j < totalChecks (contoursFor img) labelNames ∧ obs j = true) :
    processImageSync decode contoursFor obs data = .ok [] := by
  unfold processImageSync
  rw [hdec]
  dsimp only
  cases hpl : processLabels (contoursFor img) obs 0 labelNames with
  | none => rfl
  | some pr =>
    obtain ⟨res₁, k₂⟩ := pr
    obtain ⟨j, hj, hobs⟩ := hset
    obtain ⟨hlen, hall⟩ := processLabels_some_obs (contoursFor img) obs
      labelNames 0 (res₁, k₂) hpl
    have : obs j = false := hall j (Nat.zero_le j) (by omega)
    rw [this] at hobs
    cases hobs

/-- Witness for C10: nine labels with no contours give nine checkpoints;
a token that becomes set from checkpoint 5 (mid-run, after five labels
finished) still yields the empty result. -/
theorem C10_cancel_discards_all_witness :
    (5 < totalChecks (fun _ => ([] : List ContourData)) labelNames ∧
      decide (5 ≤ 5) = true) ∧
    processImageSync testDecode (fun _ _ => []) (fun j => decide (5 ≤ j)) [] =
      .ok [] :=
  ⟨⟨by decide, by decide⟩,
   C10_cancel_discards_all testDecode (fun _ _ => []) (fun j => decide (5 ≤ j))
     [] testImage rfl ⟨5, by decide, by decide⟩⟩

end Cragheads
